import Mathlib

/-!
Verification of the `catr` line-numbering utility (Rust, `src/lib.rs`).

The core is `run`: for each source identifier in the configuration, open it,
and stream its lines to standard output applying the numbering policy chosen
by the two flags.  We embed the program shallowly:

* `Config` mirrors the Rust `Config` struct.
* A source handle is embedded as the finite list of results its line iterator
  yields: `Except String String` per line (`Except.error` is a mid-stream read
  failure, as produced by `line?`).
* The environment `env : String → Except String (List (Except String String))`
  embeds the `open` collaborator: `Except.error` is an open failure.
* `processLines` embeds the inner `for (line_index, line) in file.lines().enumerate()`
  loop of `run`; `runFiles`/`run` embed the outer `for filename in config.files`
  loop.  A `RunResult` collects what was printed to stdout, what was printed to
  stderr, and the returned `MyResult<()>`.
-/

namespace Catr

/-- The Rust `Config` struct: ordered source list plus the two numbering flags. -/
structure Config where
  files : List String
  number_lines : Bool
  number_nonblank_lines : Bool
deriving Repr, DecidableEq

/-- The Rust format specifier `{:>6}` applied to a line number: the decimal
digits of `n`, right-aligned with spaces to a minimum width of 6 characters. -/
def fmtNum (n : Nat) : String :=
  let s := toString n
  String.mk (List.replicate (6 - s.length) ' ') ++ s

/-- The diagnostic printed by `eprintln!("Failed to open {}: {}", filename, err)`. -/
def openErrMsg (filename err : String) : String :=
  "Failed to open " ++ filename ++ ": " ++ err ++ "\n"

/-- The `Box<dyn BufRead>` returned by `open`: either standard input or a
buffered reader over the file at a path. -/
inductive LineReader where
  | stdin : LineReader
  | file : String → LineReader
deriving Repr, DecidableEq

/-- The Rust `open` function: `-` yields a reader over standard input, any
other identifier a buffered reader over the file at that path; `File::open`
failures (modelled by the filesystem oracle `fs`) propagate via `?`. -/
def openSource (fs : String → Except String Unit) (filename : String) :
    Except String LineReader :=
  if filename = "-" then Except.ok LineReader.stdin
  else
    match fs filename with
    | Except.ok _ => Except.ok (LineReader.file filename)
    | Except.error e => Except.error e

/-- Modelled from the spec: `get_args` delegates argument matching to the
external clap library, whose code is not in `src/`.  Per the spec, the
resolver defaults the source list to the single entry `-` when no positional
source arguments are supplied, and rejects simultaneous use of the two
numbering flags (declared via `conflicts_with` in the source) with a
user-facing error before the core runs. -/
def get_args (positional : List String) (number_lines number_nonblank_lines : Bool) :
    Except String Config :=
  if number_lines && number_nonblank_lines then
    Except.error "the argument cannot be used with the other numbering flag"
  else
    Except.ok
      { files := if positional.isEmpty then ["-"] else positional
        number_lines := number_lines
        number_nonblank_lines := number_nonblank_lines }

/-- The inner loop of `run`: iterate the line results of one opened source,
carrying the 0-based `line_index` from `enumerate()` and the per-source
`current_nonblank_line_num`.  Returns the text printed to stdout together with
`Except.ok ()` on exhaustion, or the text printed before a failing `line?`
together with that error. -/
def processLines (config : Config) :
    List (Except String String) → Nat → Nat → String × Except String Unit
  | [], _, _ => ("", Except.ok ())
  | Except.error e :: _, _, _ => ("", Except.error e)
  | Except.ok line :: rest, line_index, nonblank =>
    if config.number_lines then
      let t := processLines config rest (line_index + 1) nonblank
      (fmtNum (line_index + 1) ++ "\t" ++ line ++ "\n" ++ t.1, t.2)
    else if config.number_nonblank_lines then
      if !line.isEmpty then
        let t := processLines config rest (line_index + 1) (nonblank + 1)
        (fmtNum (nonblank + 1) ++ "\t" ++ line ++ "\n" ++ t.1, t.2)
      else
        let t := processLines config rest (line_index + 1) nonblank
        ("\n" ++ t.1, t.2)
    else
      let t := processLines config rest (line_index + 1) nonblank
      (line ++ "\n" ++ t.1, t.2)

instance : DecidableEq (Except String Unit) := fun a b =>
  match a, b with
  | Except.ok (), Except.ok () => isTrue rfl
  | Except.ok (), Except.error _ => isFalse (by simp)
  | Except.error _, Except.ok () => isFalse (by simp)
  | Except.error x, Except.error y =>
    if h : x = y then isTrue (by rw [h]) else isFalse (by simp [h])

/-- What one invocation of `run` produced: the bytes printed to standard
output, the bytes printed to standard error, and the returned `MyResult<()>`. -/
structure RunResult where
  stdout : String
  stderr : String
  result : Except String Unit
deriving Repr, DecidableEq

/-- The outer loop of `run` over the configured source identifiers: an open
failure prints a diagnostic to stderr and moves on; a successfully opened
source is drained by `processLines`, and a mid-stream read error aborts the
whole run with that error. -/
def runFiles (config : Config)
    (env : String → Except String (List (Except String String))) :
    List String → RunResult
  | [] => ⟨"", "", Except.ok ()⟩
  | filename :: rest =>
    match env filename with
    | Except.error err =>
      let r := runFiles config env rest
      ⟨r.stdout, openErrMsg filename err ++ r.stderr, r.result⟩
    | Except.ok file =>
      match processLines config file 0 0 with
      | (out, Except.ok _) =>
        let r := runFiles config env rest
        ⟨out ++ r.stdout, r.stderr, r.result⟩
      | (out, Except.error e) => ⟨out, "", Except.error e⟩

/-- The Rust `run` function, relative to an environment giving each source
identifier its open result and line stream. -/
def run (env : String → Except String (List (Except String String)))
    (config : Config) : RunResult :=
  runFiles config env config.files

/-! Spec-side descriptions of the three output formats, written from the
spec's words, to be compared with the embedded code. -/

/-- Spec: with `number_lines` set, line at 0-based position `i` is printed as
its 1-based ordinal right-aligned to width 6, a tab, the line text, a newline,
for every line including empty ones. -/
def nlSpec : List String → Nat → String
  | [], _ => ""
  | l :: rest, i => fmtNum (i + 1) ++ "\t" ++ l ++ "\n" ++ nlSpec rest (i + 1)

/-- Spec: with `number_nonblank_lines` set, a non-empty line is printed with
a strictly increasing 1-based counter counted only among non-empty lines
(`seen` of them so far), right-aligned to width 6, then a tab, the text and a
newline; an empty line prints a bare newline with no number and no tab. -/
def nbSpec : List String → Nat → String
  | [], _ => ""
  | l :: rest, seen =>
    if l.isEmpty then "\n" ++ nbSpec rest seen
    else fmtNum (seen + 1) ++ "\t" ++ l ++ "\n" ++ nbSpec rest (seen + 1)

/-- Spec: with neither flag set, output is each line followed by a single
newline, verbatim. -/
def catSpec : List String → String
  | [] => ""
  | l :: rest => l ++ "\n" ++ catSpec rest

/-- Concatenation of a list of strings, in order. -/
def concatAll : List String → String
  | [] => ""
  | s :: rest => s ++ concatAll rest

/-- Environment in which every source opens and every line reads
successfully: `contents` gives each identifier its lines. -/
def pureEnv (contents : String → List String) :
    String → Except String (List (Except String String)) :=
  fun f => Except.ok ((contents f).map Except.ok)

/-- Environment in which sources may fail to open but every line of a source
that does open reads successfully. -/
def openEnv (contents : String → Except String (List String)) :
    String → Except String (List (Except String String)) :=
  fun f =>
    match contents f with
    | Except.error e => Except.error e
    | Except.ok L => Except.ok (L.map Except.ok)

/-! Basic lemmas about `processLines`. -/

lemma processLines_nb (fs : List String) (L : List String) (i c : Nat) :
    processLines ⟨fs, false, true⟩ (L.map Except.ok) i c = (nbSpec L c, Except.ok ()) := by
  induction L generalizing i c with
  | nil => rfl
  | cons l rest ih =>
    by_cases h : l.isEmpty <;>
      simp [processLines, nbSpec, h, ih]

lemma processLines_nl (fs : List String) (b : Bool) (L : List String) (i c : Nat) :
    processLines ⟨fs, true, b⟩ (L.map Except.ok) i c = (nlSpec L i, Except.ok ()) := by
  induction L generalizing i c with
  | nil => rfl
  | cons l rest ih =>
    simp [processLines, nlSpec, ih]

lemma processLines_plain (fs : List String) (L : List String) (i c : Nat) :
    processLines ⟨fs, false, false⟩ (L.map Except.ok) i c = (catSpec L, Except.ok ()) := by
  induction L generalizing i c with
  | nil => rfl
  | cons l rest ih =>
    simp [processLines, catSpec, ih]

lemma processLines_ok_snd (config : Config) (L : List String) (i c : Nat) :
    (processLines config (L.map Except.ok) i c).2 = Except.ok () := by
  induction L generalizing i c with
  | nil => rfl
  | cons l rest ih =>
    by_cases hnl : config.number_lines
    · simp [processLines, hnl, ih]
    · by_cases hnb : config.number_nonblank_lines
      · by_cases he : l.isEmpty <;>
          simp [processLines, hnl, hnb, he, ih]
      · simp [processLines, hnl, hnb, ih]

lemma processLines_err (config : Config) (L : List String) (e : String)
    (post : List (Except String String)) (i c : Nat) :
    processLines config (L.map Except.ok ++ Except.error e :: post) i c
      = ((processLines config (L.map Except.ok) i c).1, Except.error e) := by
  induction L generalizing i c with
  | nil => rfl
  | cons l rest ih =>
    by_cases hnl : config.number_lines
    · simp [processLines, hnl, ih]
    · by_cases hnb : config.number_nonblank_lines
      · by_cases he : l.isEmpty <;>
          simp [processLines, hnl, hnb, he, ih]
      · simp [processLines, hnl, hnb, ih]

lemma concatAll_map_empty {α : Type} (l : List α) :
    concatAll (l.map fun _ => "") = "" := by
  induction l with
  | nil => rfl
  | cons a rest ih => simpa [concatAll] using ih

lemma concatAll_replicate_empty (n : Nat) :
    concatAll (List.replicate n "") = "" := by
  induction n with
  | zero => rfl
  | succ k ih => simpa [List.replicate, concatAll] using ih

/-! The outer loop over sources, characterised on failure-free and on
open-failing environments. -/

lemma runFiles_openEnv (config : Config)
    (contents : String → Except String (List String)) (fs : List String) :
    runFiles config (openEnv contents) fs
      = ⟨concatAll (fs.map fun f =>
            match contents f with
            | Except.error _ => ""
            | Except.ok L => (processLines config (L.map Except.ok) 0 0).1),
         concatAll (fs.map fun f =>
            match contents f with
            | Except.error e => openErrMsg f e
            | Except.ok _ => ""),
         Except.ok ()⟩ := by
  induction fs with
  | nil => rfl
  | cons f rest ih =>
    cases hc : contents f with
    | error e =>
      simp [runFiles, openEnv, hc, ih, concatAll]
    | ok L =>
      rcases hp : processLines config (L.map Except.ok) 0 0 with ⟨out, r⟩
      have hr : r = Except.ok () := by
        have h2 := processLines_ok_snd config L 0 0
        rw [hp] at h2
        exact h2
      subst hr
      simp [runFiles, openEnv, hc, hp, ih, concatAll]

lemma runFiles_pureEnv (config : Config)
    (contents : String → List String) (fs : List String) :
    runFiles config (pureEnv contents) fs
      = ⟨concatAll (fs.map fun f =>
            (processLines config ((contents f).map Except.ok) 0 0).1),
         "", Except.ok ()⟩ := by
  have h := runFiles_openEnv config (fun f => Except.ok (contents f)) fs
  have henv : openEnv (fun f => Except.ok (contents f)) = pureEnv contents := rfl
  rw [henv] at h
  rw [h]
  simp [concatAll_map_empty, concatAll_replicate_empty]

lemma processLines_nl_precedence (f1 f2 : List String) (b1 b2 : Bool)
    (lines : List (Except String String)) (i c : Nat) :
    processLines ⟨f1, true, b1⟩ lines i c = processLines ⟨f2, true, b2⟩ lines i c := by
  induction lines generalizing i c with
  | nil => rfl
  | cons l rest ih =>
    cases l with
    | error e => rfl
    | ok s => simp [processLines, ih]

lemma runFiles_nl_precedence (f1 f2 : List String) (b1 b2 : Bool)
    (env : String → Except String (List (Except String String))) (fs : List String) :
    runFiles ⟨f1, true, b1⟩ env fs = runFiles ⟨f2, true, b2⟩ env fs := by
  induction fs with
  | nil => rfl
  | cons f rest ih =>
    cases he : env f with
    | error err => simp [runFiles, he, ih]
    | ok file =>
      rcases hp : processLines ⟨f2, true, b2⟩ file 0 0 with ⟨out, r⟩
      have hp1 : processLines ⟨f1, true, b1⟩ file 0 0 = (out, r) := by
        rw [processLines_nl_precedence f1 f2 b1 b2 file 0 0, hp]
      cases r with
      | ok u => simp [runFiles, he, hp, hp1, ih]
      | error e => simp [runFiles, he, hp, hp1]

/-! The claims. -/

/-- C1: with `number_nonblank_lines` set and `number_lines` unset, the run
prints, per source, each non-empty line prefixed by a strictly increasing
1-based counter counted only among the non-empty lines of that source,
right-aligned in a 6-character field, then a tab, the line text and a newline,
and for each empty line only a newline with no number and no tab (`nbSpec`);
nothing reaches stderr and the run succeeds. -/
theorem nonblank_numbering (contents : String → List String) (files : List String) :
    run (pureEnv contents) ⟨files, false, true⟩
      = ⟨concatAll (files.map fun f => nbSpec (contents f) 0), "", Except.ok ()⟩ := by
  rw [run, runFiles_pureEnv]
  simp [processLines_nb]

/-- C2: with `number_lines` set, every line of every source, empty lines
included, is printed as its 1-based ordinal within the source right-aligned
to width 6, one tab, the original line text, and a newline (`nlSpec`). -/
theorem number_all_lines (contents : String → List String) (files : List String) :
    run (pureEnv contents) ⟨files, true, false⟩
      = ⟨concatAll (files.map fun f => nlSpec (contents f) 0), "", Except.ok ()⟩ := by
  rw [run, runFiles_pureEnv]
  simp [processLines_nl]

/-- C3: in a two-source run both the `number_lines` line index and the
`number_nonblank_lines` counter restart at the start of the second source:
each source is numbered from 1 independently of the other. -/
theorem counters_reset_per_source (L1 L2 : List String) :
    (run (fun f => if f = "one" then Except.ok (L1.map Except.ok)
                   else Except.ok (L2.map Except.ok))
        ⟨["one", "two"], false, true⟩).stdout = nbSpec L1 0 ++ nbSpec L2 0
  ∧ (run (fun f => if f = "one" then Except.ok (L1.map Except.ok)
                   else Except.ok (L2.map Except.ok))
        ⟨["one", "two"], true, false⟩).stdout = nlSpec L1 0 ++ nlSpec L2 0 := by
  constructor
  · simp [run, runFiles, processLines_nb]
  · simp [run, runFiles, processLines_nl]

/-- C4: with neither flag set the run is a pure passthrough — its output is
the concatenation, in source order, of each source's lines each followed by a
single newline, with empty stderr and a success result (and, `run` being a
function of its inputs, a second run on the same inputs is identical). -/
theorem plain_passthrough (contents : String → List String) (files : List String) :
    run (pureEnv contents) ⟨files, false, false⟩
      = ⟨concatAll (files.map fun f => catSpec (contents f)), "", Except.ok ()⟩ := by
  rw [run, runFiles_pureEnv]
  simp [processLines_plain]

/-- C5: a source whose open fails contributes exactly one stderr line
`Failed to open <identifier>: <error detail>` and no stdout at all, the
remaining sources are still processed in order, and the run still returns
success. -/
theorem open_failure_skips_source (contents : String → Except String (List String))
    (files : List String) (nl nb : Bool) :
    run (openEnv contents) ⟨files, nl, nb⟩
      = ⟨concatAll (files.map fun f =>
            match contents f with
            | Except.error _ => ""
            | Except.ok L => (processLines ⟨files, nl, nb⟩ (L.map Except.ok) 0 0).1),
         concatAll (files.map fun f =>
            match contents f with
            | Except.error e => openErrMsg f e
            | Except.ok _ => ""),
         Except.ok ()⟩ :=
  runFiles_openEnv ⟨files, nl, nb⟩ contents files

/-- C6: an error while reading a line from an already-opened source is fatal:
the run emits only what preceded the failing line, processes none of the
remaining lines or sources, and returns the error. -/
theorem read_error_aborts_run (good : List String) (e : String)
    (post : List (Except String String)) (restFiles : List String)
    (env : String → Except String (List (Except String String))) (nl nb : Bool) :
    run (fun f => if f = "bad" then Except.ok (good.map Except.ok ++ Except.error e :: post)
                  else env f)
        ⟨"bad" :: restFiles, nl, nb⟩
      = ⟨(processLines ⟨"bad" :: restFiles, nl, nb⟩ (good.map Except.ok) 0 0).1,
         "", Except.error e⟩ := by
  simp [run, runFiles, processLines_err]

/-- C7: with no positional source arguments the resolver produces the single
source list `-`; and `open` maps `-` to a reader over standard input and any
other identifier to a reader over the file at that path. -/
theorem default_stdin_and_open_mapping (n b : Bool) (hnb : (n && b) = false)
    (fs : String → Except String Unit) (p : String) (hp : ¬ p = "-") :
    get_args [] n b = Except.ok ⟨["-"], n, b⟩
  ∧ openSource fs "-" = Except.ok LineReader.stdin
  ∧ (fs p = Except.ok () → openSource fs p = Except.ok (LineReader.file p)) := by
  refine ⟨?_, ?_, ?_⟩
  · simp [get_args, hnb]
  · simp [openSource]
  · intro hfs
    simp [openSource, hp, hfs]

theorem default_stdin_and_open_mapping_w :
    get_args [] false false = Except.ok ⟨["-"], false, false⟩
  ∧ openSource (fun _ : String => (Except.ok () : Except String Unit)) "-"
      = Except.ok LineReader.stdin
  ∧ ((fun _ : String => (Except.ok () : Except String Unit)) "x" = Except.ok () →
      openSource (fun _ : String => (Except.ok () : Except String Unit)) "x"
        = Except.ok (LineReader.file "x")) :=
  default_stdin_and_open_mapping false false (by decide)
    (fun _ : String => (Except.ok () : Except String Unit)) "x" (by decide)

/-- C8: the two numbering flags are mutually exclusive — every Configuration
the resolver produces has at most one flag true, and supplying both flags is
rejected with an error before the core runs. -/
theorem flags_mutually_exclusive (positional : List String) (n b : Bool) :
    (∀ config, get_args positional n b = Except.ok config →
        ¬(config.number_lines = true ∧ config.number_nonblank_lines = true))
  ∧ ∃ msg, get_args positional true true = Except.error msg := by
  constructor
  · intro config hok hboth
    rcases hboth with ⟨h1, h2⟩
    by_cases hcase : (n && b) = true
    · simp only [get_args] at hok
      rw [if_pos hcase] at hok
      exact Except.noConfusion hok
    · simp only [get_args] at hok
      rw [if_neg hcase] at hok
      have hc : config = ⟨if List.isEmpty positional then ["-"] else positional, n, b⟩ :=
        (Except.ok.inj hok).symm
      rw [hc] at h1 h2
      simp only at h1 h2
      rw [h1, h2] at hcase
      exact hcase rfl
  · exact ⟨"the argument cannot be used with the other numbering flag", by simp [get_args]⟩

theorem flags_mutually_exclusive_w :
    ¬((Config.mk ["f"] true false).number_lines = true
        ∧ (Config.mk ["f"] true false).number_nonblank_lines = true) :=
  (flags_mutually_exclusive ["f"] true false).1 (Config.mk ["f"] true false)
    (by simp [get_args])

/-- C9: a Configuration with both flags true (bypassing the resolver) behaves
exactly like one with `number_lines` alone: the `number_lines` branch takes
precedence and the whole run is identical. -/
theorem number_lines_takes_precedence
    (env : String → Except String (List (Except String String))) (files : List String) :
    run env ⟨files, true, true⟩ = run env ⟨files, true, false⟩ :=
  runFiles_nl_precedence files files true false env files

/-- C10: a source that opens successfully with zero lines produces no output
at all — no newline, no number — under every flag combination, and the run
proceeds to the next source, whose output is unaffected. -/
theorem empty_source_no_output (nl nb : Bool) (L : List String) :
    run (fun f => if f = "emptysrc" then Except.ok []
                  else Except.ok (L.map Except.ok))
        ⟨["emptysrc", "nextsrc"], nl, nb⟩
      = ⟨(processLines ⟨["emptysrc", "nextsrc"], nl, nb⟩ (L.map Except.ok) 0 0).1,
         "", Except.ok ()⟩ := by
  rcases hp : processLines ⟨["emptysrc", "nextsrc"], nl, nb⟩ (L.map Except.ok) 0 0
    with ⟨out, r⟩
  have hr : r = Except.ok () := by
    have h2 := processLines_ok_snd ⟨["emptysrc", "nextsrc"], nl, nb⟩ L 0 0
    rw [hp] at h2
    exact h2
  subst hr
  simp [run, runFiles, processLines, hp]

end Catr
